import Mathlib

/-!
Shallow embedding of the `bufio` package (buffered reader/writer with a
fixed-width binary codec) and proofs about its specified behaviour.

Bytes are modelled as natural numbers; Go's `byte(v)` truncation is `v % 256`.
Buffers are lists of bytes of fixed length (the capacity); Go's `copy` into a
slice window is `listCopy`.  Machine integers are `Nat`/`Int` with explicit
reduction modulo 2^w where the code truncates.
-/

namespace Bufio

/-- Go `byte(v)`: truncation of an unsigned value to its low 8 bits. -/
def byte (v : Nat) : Nat := v % 256

/-- The error values the package can surface.  `eof`, `unexpectedEOF`,
`noProgress` and `shortWrite` come from the `io` package; `bufferFull` and
`negativeCount` are the package's own sentinels; `other k` stands for an
arbitrary error produced by a wrapped stream. -/
inductive Err where
  | eof
  | unexpectedEOF
  | noProgress
  | shortWrite
  | bufferFull
  | negativeCount
  | other (k : Nat)
  deriving DecidableEq, Repr

/- ===================== Binary codec (part_000) ===================== -/

/-- `binary.LittleEndian.Uint16`: `uint16(b[0]) | uint16(b[1])<<8`. -/
def GetUint16LE (b : List Nat) : Nat :=
  b.getD 0 0 + b.getD 1 0 * 2 ^ 8

/-- `binary.LittleEndian.PutUint16`: `b[0] = byte(v); b[1] = byte(v >> 8)`. -/
def PutUint16LE (b : List Nat) (v : Nat) : List Nat :=
  byte v :: byte (v / 2 ^ 8) :: b.drop 2

/-- `binary.BigEndian.Uint16`: `uint16(b[1]) | uint16(b[0])<<8`. -/
def GetUint16BE (b : List Nat) : Nat :=
  b.getD 1 0 + b.getD 0 0 * 2 ^ 8

/-- `binary.BigEndian.PutUint16`: `b[0] = byte(v >> 8); b[1] = byte(v)`. -/
def PutUint16BE (b : List Nat) (v : Nat) : List Nat :=
  byte (v / 2 ^ 8) :: byte v :: b.drop 2

/-- `binary.LittleEndian.Uint32`. -/
def GetUint32LE (b : List Nat) : Nat :=
  b.getD 0 0 + b.getD 1 0 * 2 ^ 8 + b.getD 2 0 * 2 ^ 16 + b.getD 3 0 * 2 ^ 24

/-- `binary.LittleEndian.PutUint32`. -/
def PutUint32LE (b : List Nat) (v : Nat) : List Nat :=
  byte v :: byte (v / 2 ^ 8) :: byte (v / 2 ^ 16) :: byte (v / 2 ^ 24) :: b.drop 4

/-- `binary.BigEndian.Uint32`. -/
def GetUint32BE (b : List Nat) : Nat :=
  b.getD 3 0 + b.getD 2 0 * 2 ^ 8 + b.getD 1 0 * 2 ^ 16 + b.getD 0 0 * 2 ^ 24

/-- `binary.BigEndian.PutUint32`. -/
def PutUint32BE (b : List Nat) (v : Nat) : List Nat :=
  byte (v / 2 ^ 24) :: byte (v / 2 ^ 16) :: byte (v / 2 ^ 8) :: byte v :: b.drop 4

/-- `binary.LittleEndian.Uint64`. -/
def GetUint64LE (b : List Nat) : Nat :=
  b.getD 0 0 + b.getD 1 0 * 2 ^ 8 + b.getD 2 0 * 2 ^ 16 + b.getD 3 0 * 2 ^ 24 +
  b.getD 4 0 * 2 ^ 32 + b.getD 5 0 * 2 ^ 40 + b.getD 6 0 * 2 ^ 48 + b.getD 7 0 * 2 ^ 56

/-- `binary.LittleEndian.PutUint64`. -/
def PutUint64LE (b : List Nat) (v : Nat) : List Nat :=
  byte v :: byte (v / 2 ^ 8) :: byte (v / 2 ^ 16) :: byte (v / 2 ^ 24) ::
  byte (v / 2 ^ 32) :: byte (v / 2 ^ 40) :: byte (v / 2 ^ 48) :: byte (v / 2 ^ 56) ::
  b.drop 8

/-- `binary.BigEndian.Uint64`. -/
def GetUint64BE (b : List Nat) : Nat :=
  b.getD 7 0 + b.getD 6 0 * 2 ^ 8 + b.getD 5 0 * 2 ^ 16 + b.getD 4 0 * 2 ^ 24 +
  b.getD 3 0 * 2 ^ 32 + b.getD 2 0 * 2 ^ 40 + b.getD 1 0 * 2 ^ 48 + b.getD 0 0 * 2 ^ 56

/-- `binary.BigEndian.PutUint64`. -/
def PutUint64BE (b : List Nat) (v : Nat) : List Nat :=
  byte (v / 2 ^ 56) :: byte (v / 2 ^ 48) :: byte (v / 2 ^ 40) :: byte (v / 2 ^ 32) ::
  byte (v / 2 ^ 24) :: byte (v / 2 ^ 16) :: byte (v / 2 ^ 8) :: byte v ::
  b.drop 8

/-- A `float32` value, represented by its IEEE-754 binary32 bit pattern,
exactly as `math.Float32bits` exposes it.  The codec only ever moves the
bit pattern, so this representation is bit-for-bit faithful. -/
structure Float32 where
  bits : Nat
  deriving DecidableEq, Repr

/-- A `float64` value, represented by its IEEE-754 binary64 bit pattern. -/
structure Float64 where
  bits : Nat
  deriving DecidableEq, Repr

/-- `math.Float32frombits`: reinterpret a 32-bit pattern as a float32. -/
def Float32frombits (n : Nat) : Float32 := ⟨n⟩

/-- `math.Float32bits`: the IEEE-754 bit pattern of a float32. -/
def Float32bits (f : Float32) : Nat := f.bits

/-- `math.Float64frombits`. -/
def Float64frombits (n : Nat) : Float64 := ⟨n⟩

/-- `math.Float64bits`. -/
def Float64bits (f : Float64) : Nat := f.bits

def GetFloat32BE (b : List Nat) : Float32 := Float32frombits (GetUint32BE b)

def PutFloat32BE (b : List Nat) (v : Float32) : List Nat := PutUint32BE b (Float32bits v)

def GetFloat32LE (b : List Nat) : Float32 := Float32frombits (GetUint32LE b)

def PutFloat32LE (b : List Nat) (v : Float32) : List Nat := PutUint32LE b (Float32bits v)

def GetFloat64BE (b : List Nat) : Float64 := Float64frombits (GetUint64BE b)

def PutFloat64BE (b : List Nat) (v : Float64) : List Nat := PutUint64BE b (Float64bits v)

def GetFloat64LE (b : List Nat) : Float64 := Float64frombits (GetUint64LE b)

def PutFloat64LE (b : List Nat) (v : Float64) : List Nat := PutUint64LE b (Float64bits v)

/-- Two's-complement reinterpretation `int8(i)` of a `uint8` value. -/
def toInt8 (i : Nat) : Int := if i < 2 ^ 7 then (i : Int) else (i : Int) - 2 ^ 8

/-- Two's-complement reinterpretation `int16(i)`. -/
def toInt16 (i : Nat) : Int := if i < 2 ^ 15 then (i : Int) else (i : Int) - 2 ^ 16

/-- Two's-complement reinterpretation `int32(i)`. -/
def toInt32 (i : Nat) : Int := if i < 2 ^ 31 then (i : Int) else (i : Int) - 2 ^ 32

/-- Two's-complement reinterpretation `int64(i)`. -/
def toInt64 (i : Nat) : Int := if i < 2 ^ 63 then (i : Int) else (i : Int) - 2 ^ 64

/-- `uint8(v)` for a signed `v`: the unique representative in `[0, 2^8)`. -/
def uint8ofInt (v : Int) : Nat := (v % 2 ^ 8).toNat

/-- `uint16(v)` for a signed `v`. -/
def uint16ofInt (v : Int) : Nat := (v % 2 ^ 16).toNat

/-- `uint32(v)` for a signed `v`. -/
def uint32ofInt (v : Int) : Nat := (v % 2 ^ 32).toNat

/-- `uint64(v)` for a signed `v`. -/
def uint64ofInt (v : Int) : Nat := (v % 2 ^ 64).toNat

/- ===================== Stream models ===================== -/

/-- One response of a wrapped readable stream to a `Read` call: the bytes it
hands back (truncated by the model to the destination's capacity) and the
error it reports alongside them. -/
structure Resp where
  chunk : List Nat
  err : Option Err
  deriving DecidableEq, Repr

/-- A readable stream, modelled as the script of its successive responses.
An exhausted script behaves as a stream at end-of-file. -/
abbrev RStream := List Resp

/-- One call `rd.Read(dst)` with `cap = len(dst)`: consume the next scripted
response, truncating its bytes to the destination's capacity.  Returns
(bytes read, error, remaining stream). -/
def streamRead (s : RStream) (cap : Nat) : List Nat × Option Err × RStream :=
  match s with
  | [] => ([], some Err.eof, [])
  | r :: rest => (r.chunk.take cap, r.err, rest)

/-- One response of a wrapped writable stream to a `Write` call: how many
bytes it accepts (capped by the model at the source's length) and the error
it reports.  An exhausted script behaves as a perfect sink. -/
structure WResp where
  cnt : Nat
  err : Option Err
  deriving DecidableEq, Repr

/-- A writable stream, modelled as the script of its successive responses. -/
abbrev WStream := List WResp

/-- One call `wr.Write(p)`: (bytes accepted, error, remaining stream). -/
def streamWrite (s : WStream) (p : List Nat) : Nat × Option Err × WStream :=
  match s with
  | [] => (p.length, none, [])
  | r :: rest => (min r.cnt p.length, r.err, rest)

/-- Go's `copy(dst[i:], src)` on a whole-buffer view: overwrite `dst` from
offset `i` with as much of `src` as fits.  The result keeps `dst`'s length
whenever `i ≤ dst.length`. -/
def listCopy (dst : List Nat) (i : Nat) (src : List Nat) : List Nat :=
  dst.take i ++ src.take (dst.length - i) ++ dst.drop (i + src.length)

/- ===================== Reader ===================== -/

/-- The `Reader` state: buffer contents (of fixed length = capacity), the
wrapped stream, the read/write cursors `r ≤ w`, the sticky-once error, and a
flag recording that a `panic` was reached (after which execution is dead). -/
structure Reader where
  buf : List Nat
  rd : RStream
  r : Nat
  w : Nat
  err : Option Err
  panicked : Bool
  deriving DecidableEq, Repr

/-- `maxConsecutiveEmptyReads = 100`. -/
def maxConsecutiveEmptyReads : Nat := 100

/-- `Buffered() = w - r`. -/
def Reader.Buffered (b : Reader) : Nat := b.w - b.r

/-- `readErr`: return the stored error and clear it. -/
def Reader.readErr (b : Reader) : Option Err × Reader :=
  (b.err, {b with err := none})

/-- The bounded read loop inside `fill`: up to `maxConsecutiveEmptyReads`
attempts, stopping at the first attempt that returns bytes or an error;
exhausting the bound stores `io.ErrNoProgress`. -/
def fillLoop (st : Reader) : Nat → Reader
  | 0 => {st with err := some Err.noProgress}
  | i + 1 =>
    let res := streamRead st.rd (st.buf.length - st.w)
    let st1 : Reader := {st with rd := res.2.2,
                                 buf := listCopy st.buf st.w res.1,
                                 w := st.w + res.1.length}
    match res.2.1 with
    | some e => {st1 with err := some e}
    | none => if 0 < res.1.length then st1 else fillLoop st1 i

/-- `fill`: slide the unread region `[r,w)` to the front, panic if the buffer
is already full, then run the bounded read loop. -/
def Reader.fill (b : Reader) : Reader :=
  if b.panicked then b else
  let st := if b.r > 0 then
      {b with buf := listCopy b.buf 0 ((b.buf.drop b.r).take (b.w - b.r)),
              w := b.w - b.r, r := 0}
    else b
  if st.w ≥ st.buf.length then {st with panicked := true}
  else fillLoop st maxConsecutiveEmptyReads

/-- The `for b.w-b.r < n && b.err == nil { b.fill() }` loop of `Peek`.  Each
non-final iteration either stores an error or strictly grows `w - r`, so a
fuel of `n` reproduces the loop exactly. -/
def peekFillLoop (st : Reader) (n : Nat) : Nat → Reader
  | 0 => st
  | fuel + 1 =>
    if st.w - st.r < n ∧ st.err = none ∧ st.panicked = false then
      peekFillLoop st.fill n fuel
    else st

/-- `Reader.Peek(n)`: returns (window, error) and the updated reader. -/
def Reader.Peek (b : Reader) (n : Int) : (List Nat × Option Err) × Reader :=
  if n < 0 then (([], some Err.negativeCount), b)
  else if n > b.buf.length then (([], some Err.bufferFull), b)
  else
    let st1 := peekFillLoop b n.toNat n.toNat
    if st1.w - st1.r < n.toNat then
      let navail := st1.w - st1.r
      let res := st1.readErr
      let e := if res.1 = none then some Err.bufferFull else res.1
      (((res.2.buf.drop res.2.r).take navail, e), res.2)
    else
      (((st1.buf.drop st1.r).take n.toNat, none), st1)

/-- `Reader.Pop(n)`: `Peek(n)`, then advance `r` by `n` on success. -/
def Reader.Pop (b : Reader) (n : Int) : (List Nat × Option Err) × Reader :=
  match b.Peek n with
  | ((d, none), st) => ((d, none), {st with r := st.r + n.toNat})
  | ((_, some e), st) => (([], some e), st)

/-- The `for {}` loop of `Discard`.  Fuel `n + 1` suffices: every iteration
either strictly decreases `remain` or exits through the error branch. -/
def discardLoop (st : Reader) (n remain : Nat) : Nat → (Nat × Option Err) × Reader
  | 0 => ((n - remain, none), st)
  | fuel + 1 =>
    let st1 := if st.Buffered = 0 then st.fill else st
    let skip := min st1.Buffered remain
    let st2 : Reader := {st1 with r := st1.r + skip}
    let remain' := remain - skip
    if remain' = 0 then ((n, none), st2)
    else if st2.err ≠ none then
      let res := st2.readErr
      ((n - remain', res.1), res.2)
    else discardLoop st2 n remain' fuel

/-- `Reader.Discard(n)`: skip `n` bytes; returns (count discarded, error). -/
def Reader.Discard (b : Reader) (n : Int) : (Nat × Option Err) × Reader :=
  if n < 0 then ((0, some Err.negativeCount), b)
  else if n = 0 then ((0, none), b)
  else discardLoop b n.toNat n.toNat (n.toNat + 1)

/-- `Reader.Read(p)` for a destination of length `plen`: returns the bytes
copied into `p` (their count is Go's return value `n`) and the error. -/
def Reader.Read (b : Reader) (plen : Nat) : (List Nat × Option Err) × Reader :=
  if plen = 0 then
    let res := b.readErr
    (([], res.1), res.2)
  else if b.r = b.w then
    if b.err ≠ none then
      let res := b.readErr
      (([], res.1), res.2)
    else if plen ≥ b.buf.length then
      -- Large read, empty buffer: read directly into p, bypassing the buffer.
      let res := streamRead b.rd plen
      let st1 : Reader := {b with rd := res.2.2, err := res.2.1}
      let res2 := st1.readErr
      ((res.1, res2.1), res2.2)
    else
      let st1 := b.fill
      if st1.r = st1.w then
        let res := st1.readErr
        (([], res.1), res.2)
      else
        let k := min (st1.w - st1.r) plen
        (((st1.buf.drop st1.r).take k, none), {st1 with r := st1.r + k})
  else
    let k := min (b.w - b.r) plen
    (((b.buf.drop b.r).take k, none), {b with r := b.r + k})

/-- `io.ReadFull`'s inner loop (`io.ReadAtLeast`): keep reading until the
destination is full or an error arrives.  Recursion is on the stream script,
which every underlying read consumes by one entry. -/
def readFullLoop : RStream → Nat → List Nat → List Nat × Option Err × RStream
  | s, 0, acc => (acc, none, s)
  | [], _ + 1, acc => (acc, some Err.eof, [])
  | r :: rest, m + 1, acc =>
    let got := r.chunk.take (m + 1)
    match r.err with
    | some e => (acc ++ got, some e, rest)
    | none => readFullLoop rest (m + 1 - got.length) (acc ++ got)

/-- `io.ReadFull(rd, b)` for a destination of length `n`: the bytes read, the
error after `ReadAtLeast`'s post-processing, and the remaining stream. -/
def readFull (s : RStream) (n : Nat) : List Nat × Option Err × RStream :=
  let res := readFullLoop s n []
  if n ≤ res.1.length then (res.1, none, res.2.2)
  else if 0 < res.1.length ∧ res.2.1 = some Err.eof then
    (res.1, some Err.unexpectedEOF, res.2.2)
  else res

/-- `Reader.ReadBytes(n)`: allocate `n` zero bytes, `io.ReadFull` directly
from the wrapped stream into them, store the resulting error in the sticky
field, and return the (possibly zero-padded) slice with that error. -/
def Reader.ReadBytes (reader : Reader) (n : Nat) : (List Nat × Option Err) × Reader :=
  let res := readFull reader.rd n
  ((res.1 ++ List.replicate (n - res.1.length) 0, res.2.1),
   {reader with rd := res.2.2, err := res.2.1})

/-- `Reader.ReadString(n)`: `ReadBytes(n)`, converted to a string on success,
empty on failure.  Strings are modelled as their byte lists. -/
def Reader.ReadString (reader : Reader) (n : Nat) : (List Nat × Option Err) × Reader :=
  match reader.ReadBytes n with
  | ((b, none), st) => ((b, none), st)
  | ((_, some e), st) => (([], some e), st)

/- Fixed-width read helpers: `Pop(width)` then codec-decode; on failure the
unsigned and float variants return the zero value with the error. -/

def Reader.ReadUint8 (reader : Reader) : (Nat × Option Err) × Reader :=
  match reader.Pop 1 with
  | ((b, none), st) => ((b.getD 0 0, none), st)
  | ((_, some e), st) => ((0, some e), st)

def Reader.ReadUint16BE (reader : Reader) : (Nat × Option Err) × Reader :=
  match reader.Pop 2 with
  | ((b, none), st) => ((GetUint16BE b, none), st)
  | ((_, some e), st) => ((0, some e), st)

def Reader.ReadUint16LE (reader : Reader) : (Nat × Option Err) × Reader :=
  match reader.Pop 2 with
  | ((b, none), st) => ((GetUint16LE b, none), st)
  | ((_, some e), st) => ((0, some e), st)

def Reader.ReadUint32BE (reader : Reader) : (Nat × Option Err) × Reader :=
  match reader.Pop 4 with
  | ((b, none), st) => ((GetUint32BE b, none), st)
  | ((_, some e), st) => ((0, some e), st)

def Reader.ReadUint32LE (reader : Reader) : (Nat × Option Err) × Reader :=
  match reader.Pop 4 with
  | ((b, none), st) => ((GetUint32LE b, none), st)
  | ((_, some e), st) => ((0, some e), st)

def Reader.ReadUint64BE (reader : Reader) : (Nat × Option Err) × Reader :=
  match reader.Pop 8 with
  | ((b, none), st) => ((GetUint64BE b, none), st)
  | ((_, some e), st) => ((0, some e), st)

def Reader.ReadUint64LE (reader : Reader) : (Nat × Option Err) × Reader :=
  match reader.Pop 8 with
  | ((b, none), st) => ((GetUint64LE b, none), st)
  | ((_, some e), st) => ((0, some e), st)

def Reader.ReadFloat32BE (reader : Reader) : (Float32 × Option Err) × Reader :=
  match reader.Pop 4 with
  | ((b, none), st) => ((GetFloat32BE b, none), st)
  | ((_, some e), st) => ((⟨0⟩, some e), st)

def Reader.ReadFloat32LE (reader : Reader) : (Float32 × Option Err) × Reader :=
  match reader.Pop 4 with
  | ((b, none), st) => ((GetFloat32LE b, none), st)
  | ((_, some e), st) => ((⟨0⟩, some e), st)

def Reader.ReadFloat64BE (reader : Reader) : (Float64 × Option Err) × Reader :=
  match reader.Pop 8 with
  | ((b, none), st) => ((GetFloat64BE b, none), st)
  | ((_, some e), st) => ((⟨0⟩, some e), st)

def Reader.ReadFloat64LE (reader : Reader) : (Float64 × Option Err) × Reader :=
  match reader.Pop 8 with
  | ((b, none), st) => ((GetFloat64LE b, none), st)
  | ((_, some e), st) => ((⟨0⟩, some e), st)

/- Signed read helpers: reuse the unsigned helper and reinterpret the bits;
on failure they return `-1` with the error. -/

def Reader.ReadInt8 (reader : Reader) : (Int × Option Err) × Reader :=
  match reader.ReadUint8 with
  | ((i, none), st) => ((toInt8 i, none), st)
  | ((_, some e), st) => ((-1, some e), st)

def Reader.ReadInt16BE (reader : Reader) : (Int × Option Err) × Reader :=
  match reader.ReadUint16BE with
  | ((i, none), st) => ((toInt16 i, none), st)
  | ((_, some e), st) => ((-1, some e), st)

def Reader.ReadInt16LE (reader : Reader) : (Int × Option Err) × Reader :=
  match reader.ReadUint16LE with
  | ((i, none), st) => ((toInt16 i, none), st)
  | ((_, some e), st) => ((-1, some e), st)

def Reader.ReadInt32BE (reader : Reader) : (Int × Option Err) × Reader :=
  match reader.ReadUint32BE with
  | ((i, none), st) => ((toInt32 i, none), st)
  | ((_, some e), st) => ((-1, some e), st)

def Reader.ReadInt32LE (reader : Reader) : (Int × Option Err) × Reader :=
  match reader.ReadUint32LE with
  | ((i, none), st) => ((toInt32 i, none), st)
  | ((_, some e), st) => ((-1, some e), st)

def Reader.ReadInt64BE (reader : Reader) : (Int × Option Err) × Reader :=
  match reader.ReadUint64BE with
  | ((i, none), st) => ((toInt64 i, none), st)
  | ((_, some e), st) => ((-1, some e), st)

def Reader.ReadInt64LE (reader : Reader) : (Int × Option Err) × Reader :=
  match reader.ReadUint64LE with
  | ((i, none), st) => ((toInt64 i, none), st)
  | ((_, some e), st) => ((-1, some e), st)

/- ===================== Writer ===================== -/

/-- The `Writer` state: the permanently sticky error, buffer contents, the
count `n` of bytes pending flush, and the wrapped writable stream. -/
structure Writer where
  err : Option Err
  buf : List Nat
  n : Nat
  wr : WStream
  deriving DecidableEq, Repr

/-- `Available() = len(buf) - n`. -/
def Writer.Available (b : Writer) : Nat := b.buf.length - b.n

/-- `Buffered() = n`. -/
def Writer.Buffered (b : Writer) : Nat := b.n

/-- `Writer.Reset`: discard buffered data, clear the error, rebind. -/
def Writer.Reset (b : Writer) (w : WStream) : Writer :=
  {b with err := none, n := 0, wr := w}

/-- `Writer.ResetBuffer`: like `Reset`, also replacing the buffer. -/
def Writer.ResetBuffer (_ : Writer) (w : WStream) (buf : List Nat) : Writer :=
  {err := none, buf := buf, n := 0, wr := w}

/-- `Writer.flush`: write the pending bytes; synthesize `io.ErrShortWrite`
on a short count with no error; on any error, compact the unwritten
remainder to the buffer's start and store the error permanently. -/
def Writer.flush (b : Writer) : Option Err × Writer :=
  match b.err with
  | some e => (some e, b)
  | none =>
    if b.n = 0 then (none, b)
    else
      let res := streamWrite b.wr (b.buf.take b.n)
      let k := res.1
      let e2 := if k < b.n ∧ res.2.1 = none then some Err.shortWrite else res.2.1
      match e2 with
      | some e3 =>
        let buf' := if 0 < k ∧ k < b.n then
            listCopy b.buf 0 ((b.buf.drop k).take (b.n - k))
          else b.buf
        (some e3, {b with wr := res.2.2, buf := buf', n := b.n - k, err := some e3})
      | none => (none, {b with wr := res.2.2, n := 0})

/-- `Writer.Flush`. -/
def Writer.Flush (b : Writer) : Option Err × Writer := b.flush

/-- The `for len(p) > b.Available() && b.err == nil {}` loop of `Write`.
Every iteration consumes a stream-script entry or shortens `p`, so the fuel
used by `Write` reproduces the loop exactly. -/
def writeLoop (b : Writer) (p : List Nat) (nn : Nat) : Nat → (Nat × Option Err) × Writer
  | 0 => ((nn, b.err), b)
  | fuel + 1 =>
    if p.length > b.Available ∧ b.err = none then
      if b.Buffered = 0 then
        -- Large write, empty buffer: write directly from p.
        let res := streamWrite b.wr p
        writeLoop {b with wr := res.2.2, err := res.2.1} (p.drop res.1) (nn + res.1) fuel
      else
        let k := min b.Available p.length
        let b1 : Writer := {b with buf := listCopy b.buf b.n (p.take k), n := b.n + k}
        writeLoop (b1.flush).2 (p.drop k) (nn + k) fuel
    else
      match b.err with
      | some e => ((nn, some e), b)
      | none =>
        let k := min b.Available p.length
        ((nn + k, none), {b with buf := listCopy b.buf b.n (p.take k), n := b.n + k})

/-- `Writer.Write(p)`: returns (bytes accepted, error). -/
def Writer.Write (b : Writer) (p : List Nat) : (Nat × Option Err) × Writer :=
  writeLoop b p 0 (b.wr.length + p.length + 2)

/-- The `for b.Available() < n && b.err == nil { b.flush() }` loop of the
Writer's `Peek`.  A successful flush empties the buffer, so the loop runs at
most one full iteration; the generous fuel reproduces it exactly. -/
def wpeekLoop (b : Writer) (n : Nat) : Nat → Writer
  | 0 => b
  | fuel + 1 =>
    if b.Available < n ∧ b.err = none then wpeekLoop (b.flush).2 n fuel else b

/-- `Writer.Peek(n)`: reservation-style peek — flush as needed, then hand out
the next `n` bytes of the buffer and advance the pending count. -/
def Writer.Peek (b : Writer) (n : Int) : (List Nat × Option Err) × Writer :=
  if n < 0 then (([], some Err.negativeCount), b)
  else if n > b.buf.length then (([], some Err.bufferFull), b)
  else
    let b1 := wpeekLoop b n.toNat (b.buf.length + 1)
    match b1.err with
    | some e => (([], some e), b1)
    | none => (((b1.buf.drop b1.n).take n.toNat, none), {b1 with n := b1.n + n.toNat})

/- Fixed-width write helpers: `Peek(width)`, then encode into the reserved
window; uniformly return `-1` with the error on failure. -/

/-- Encode-into-window plumbing shared by the write helpers: overwrite the
freshly reserved `width`-byte window (ending at the advanced `n`) with the
encoded bytes. -/
def Writer.setWindow (w : Writer) (width : Nat) (data : List Nat) : Writer :=
  {w with buf := listCopy w.buf (w.n - width) data}

def Writer.WriteBytes (writer : Writer) (b : List Nat) : (Nat × Option Err) × Writer :=
  writer.Write b

def Writer.WriteString (writer : Writer) (s : List Nat) : (Nat × Option Err) × Writer :=
  writer.WriteBytes s

def Writer.WriteUint8 (writer : Writer) (v : Nat) : (Int × Option Err) × Writer :=
  match writer.Peek 1 with
  | ((_, none), w) => ((1, none), w.setWindow 1 [byte v])
  | ((_, some e), w) => ((-1, some e), w)

def Writer.WriteUint16BE (writer : Writer) (v : Nat) : (Int × Option Err) × Writer :=
  match writer.Peek 2 with
  | ((b, none), w) => ((2, none), w.setWindow 2 (PutUint16BE b v))
  | ((_, some e), w) => ((-1, some e), w)

def Writer.WriteUint16LE (writer : Writer) (v : Nat) : (Int × Option Err) × Writer :=
  match writer.Peek 2 with
  | ((b, none), w) => ((2, none), w.setWindow 2 (PutUint16LE b v))
  | ((_, some e), w) => ((-1, some e), w)

def Writer.WriteUint32BE (writer : Writer) (v : Nat) : (Int × Option Err) × Writer :=
  match writer.Peek 4 with
  | ((b, none), w) => ((4, none), w.setWindow 4 (PutUint32BE b v))
  | ((_, some e), w) => ((-1, some e), w)

def Writer.WriteUint32LE (writer : Writer) (v : Nat) : (Int × Option Err) × Writer :=
  match writer.Peek 4 with
  | ((b, none), w) => ((4, none), w.setWindow 4 (PutUint32LE b v))
  | ((_, some e), w) => ((-1, some e), w)

def Writer.WriteUint64BE (writer : Writer) (v : Nat) : (Int × Option Err) × Writer :=
  match writer.Peek 8 with
  | ((b, none), w) => ((8, none), w.setWindow 8 (PutUint64BE b v))
  | ((_, some e), w) => ((-1, some e), w)

def Writer.WriteUint64LE (writer : Writer) (v : Nat) : (Int × Option Err) × Writer :=
  match writer.Peek 8 with
  | ((b, none), w) => ((8, none), w.setWindow 8 (PutUint64LE b v))
  | ((_, some e), w) => ((-1, some e), w)

def Writer.WriteFloat32BE (writer : Writer) (v : Float32) : (Int × Option Err) × Writer :=
  match writer.Peek 4 with
  | ((b, none), w) => ((4, none), w.setWindow 4 (PutFloat32BE b v))
  | ((_, some e), w) => ((-1, some e), w)

def Writer.WriteFloat32LE (writer : Writer) (v : Float32) : (Int × Option Err) × Writer :=
  match writer.Peek 4 with
  | ((b, none), w) => ((4, none), w.setWindow 4 (PutFloat32LE b v))
  | ((_, some e), w) => ((-1, some e), w)

def Writer.WriteFloat64BE (writer : Writer) (v : Float64) : (Int × Option Err) × Writer :=
  match writer.Peek 8 with
  | ((b, none), w) => ((8, none), w.setWindow 8 (PutFloat64BE b v))
  | ((_, some e), w) => ((-1, some e), w)

def Writer.WriteFloat64LE (writer : Writer) (v : Float64) : (Int × Option Err) × Writer :=
  match writer.Peek 8 with
  | ((b, none), w) => ((8, none), w.setWindow 8 (PutFloat64LE b v))
  | ((_, some e), w) => ((-1, some e), w)

def Writer.WriteInt8 (writer : Writer) (v : Int) : (Int × Option Err) × Writer :=
  writer.WriteUint8 (uint8ofInt v)

def Writer.WriteInt16BE (writer : Writer) (v : Int) : (Int × Option Err) × Writer :=
  writer.WriteUint16BE (uint16ofInt v)

def Writer.WriteInt16LE (writer : Writer) (v : Int) : (Int × Option Err) × Writer :=
  writer.WriteUint16LE (uint16ofInt v)

def Writer.WriteInt32BE (writer : Writer) (v : Int) : (Int × Option Err) × Writer :=
  writer.WriteUint32BE (uint32ofInt v)

def Writer.WriteInt32LE (writer : Writer) (v : Int) : (Int × Option Err) × Writer :=
  writer.WriteUint32LE (uint32ofInt v)

def Writer.WriteInt64BE (writer : Writer) (v : Int) : (Int × Option Err) × Writer :=
  writer.WriteUint64BE (uint64ofInt v)

def Writer.WriteInt64LE (writer : Writer) (v : Int) : (Int × Option Err) × Writer :=
  writer.WriteUint64LE (uint64ofInt v)

def Writer.WriteUintBE (writer : Writer) (v : Nat) : (Int × Option Err) × Writer :=
  writer.WriteUint64BE (v % 2 ^ 64)

def Writer.WriteUintLE (writer : Writer) (v : Nat) : (Int × Option Err) × Writer :=
  writer.WriteUint64LE (v % 2 ^ 64)

end Bufio

namespace Bufio

/- ===================== Codec lemmas ===================== -/

theorem get16le_put16le (b : List Nat) (v : Nat) (h : v < 2 ^ 16) :
    GetUint16LE (PutUint16LE b v) = v := by
  simp [GetUint16LE, PutUint16LE, byte, List.getD]
  omega

theorem get16be_put16be (b : List Nat) (v : Nat) (h : v < 2 ^ 16) :
    GetUint16BE (PutUint16BE b v) = v := by
  simp [GetUint16BE, PutUint16BE, byte, List.getD]
  omega

theorem get32le_put32le (b : List Nat) (v : Nat) (h : v < 2 ^ 32) :
    GetUint32LE (PutUint32LE b v) = v := by
  simp [GetUint32LE, PutUint32LE, byte, List.getD]
  omega

theorem get32be_put32be (b : List Nat) (v : Nat) (h : v < 2 ^ 32) :
    GetUint32BE (PutUint32BE b v) = v := by
  simp [GetUint32BE, PutUint32BE, byte, List.getD]
  omega

theorem get64le_put64le (b : List Nat) (v : Nat) (h : v < 2 ^ 64) :
    GetUint64LE (PutUint64LE b v) = v := by
  simp [GetUint64LE, PutUint64LE, byte, List.getD]
  omega

theorem get64be_put64be (b : List Nat) (v : Nat) (h : v < 2 ^ 64) :
    GetUint64BE (PutUint64BE b v) = v := by
  simp [GetUint64BE, PutUint64BE, byte, List.getD]
  omega

/-- C4: for every (width, order) combination, decoding the encoding of a
value yields the value back — `GetUintN(xx)` after `PutUintN(xx)` is the
identity on N-bit unsigned values (including 0 and the maximum), and the
float variants round-trip the IEEE-754 bit pattern exactly, so infinities
and NaN patterns round-trip bit-for-bit. -/
theorem c4_codec_roundtrip :
    (∀ (b : List Nat) (v : Nat), v < 2 ^ 16 →
      GetUint16LE (PutUint16LE b v) = v ∧ GetUint16BE (PutUint16BE b v) = v) ∧
    (∀ (b : List Nat) (v : Nat), v < 2 ^ 32 →
      GetUint32LE (PutUint32LE b v) = v ∧ GetUint32BE (PutUint32BE b v) = v) ∧
    (∀ (b : List Nat) (v : Nat), v < 2 ^ 64 →
      GetUint64LE (PutUint64LE b v) = v ∧ GetUint64BE (PutUint64BE b v) = v) ∧
    (∀ (b : List Nat) (v : Float32), Float32bits v < 2 ^ 32 →
      GetFloat32LE (PutFloat32LE b v) = v ∧ GetFloat32BE (PutFloat32BE b v) = v) ∧
    (∀ (b : List Nat) (v : Float64), Float64bits v < 2 ^ 64 →
      GetFloat64LE (PutFloat64LE b v) = v ∧ GetFloat64BE (PutFloat64BE b v) = v) := by
  refine ⟨fun b v h => ⟨get16le_put16le b v h, get16be_put16be b v h⟩,
          fun b v h => ⟨get32le_put32le b v h, get32be_put32be b v h⟩,
          fun b v h => ⟨get64le_put64le b v h, get64be_put64be b v h⟩,
          fun b v h => ?_, fun b v h => ?_⟩
  · obtain ⟨vb⟩ := v
    simp only [Float32bits] at h
    constructor
    · simp [GetFloat32LE, PutFloat32LE, Float32frombits, Float32bits, get32le_put32le b vb h]
    · simp [GetFloat32BE, PutFloat32BE, Float32frombits, Float32bits, get32be_put32be b vb h]
  · obtain ⟨vb⟩ := v
    simp only [Float64bits] at h
    constructor
    · simp [GetFloat64LE, PutFloat64LE, Float64frombits, Float64bits, get64le_put64le b vb h]
    · simp [GetFloat64BE, PutFloat64BE, Float64frombits, Float64bits, get64be_put64be b vb h]

/-- Witness for C4 at concrete boundary inputs: the maximum 16-bit value,
zero as a 64-bit value, both float32 infinities, a float32 quiet-NaN
pattern, and the float64 positive infinity pattern. -/
theorem c4_codec_roundtrip_witness :
    GetUint16LE (PutUint16LE [] 65535) = 65535 ∧
    GetUint64BE (PutUint64BE [] 0) = 0 ∧
    GetFloat32BE (PutFloat32BE [] ⟨0x7f800000⟩) = ⟨0x7f800000⟩ ∧
    GetFloat32LE (PutFloat32LE [] ⟨0xff800000⟩) = ⟨0xff800000⟩ ∧
    GetFloat32BE (PutFloat32BE [] ⟨0x7fc00000⟩) = ⟨0x7fc00000⟩ ∧
    GetFloat64LE (PutFloat64LE [] ⟨0x7ff0000000000000⟩) = ⟨0x7ff0000000000000⟩ :=
  ⟨(c4_codec_roundtrip.1 [] 65535 (by norm_num)).1,
   (c4_codec_roundtrip.2.2.1 [] 0 (by norm_num)).2,
   (c4_codec_roundtrip.2.2.2.1 [] ⟨0x7f800000⟩ (by norm_num [Float32bits])).2,
   (c4_codec_roundtrip.2.2.2.1 [] ⟨0xff800000⟩ (by norm_num [Float32bits])).1,
   (c4_codec_roundtrip.2.2.2.1 [] ⟨0x7fc00000⟩ (by norm_num [Float32bits])).2,
   (c4_codec_roundtrip.2.2.2.2 [] ⟨0x7ff0000000000000⟩ (by norm_num [Float64bits])).1⟩

/- ===================== Peek argument validation (C7) ===================== -/

/-- C7: for both `Reader.Peek` and `Writer.Peek`, a negative count returns
`ErrNegativeCount` and a count larger than the buffer capacity returns
`ErrBufferFull`, in both cases immediately: the returned state is the input
state, so the wrapped stream is not invoked and no buffer state changes. -/
theorem c7_peek_validation :
    (∀ (st : Reader) (n : Int), n < 0 →
      st.Peek n = (([], some Err.negativeCount), st)) ∧
    (∀ (st : Reader) (n : Int), (st.buf.length : Int) < n →
      st.Peek n = (([], some Err.bufferFull), st)) ∧
    (∀ (st : Writer) (n : Int), n < 0 →
      st.Peek n = (([], some Err.negativeCount), st)) ∧
    (∀ (st : Writer) (n : Int), (st.buf.length : Int) < n →
      st.Peek n = (([], some Err.bufferFull), st)) := by
  refine ⟨fun st n h => ?_, fun st n h => ?_, fun st n h => ?_, fun st n h => ?_⟩
  · simp [Reader.Peek, h]
  · have h0 : ¬ n < 0 := by omega
    simp [Reader.Peek, h, h0]
  · simp [Writer.Peek, h]
  · have h0 : ¬ n < 0 := by omega
    simp [Writer.Peek, h, h0]

/-- A concrete 4-byte reader over a stream that still has data pending. -/
def crVal : Reader :=
  { buf := [0, 0, 0, 0], rd := [⟨[9, 9], none⟩], r := 0, w := 0,
    err := none, panicked := false }

/-- A concrete 4-byte writer. -/
def cwVal : Writer :=
  { err := none, buf := [0, 0, 0, 0], n := 0, wr := [⟨4, none⟩] }

/-- Witness for C7: on 4-byte-capacity instances, `Peek(-1)` returns
`ErrNegativeCount` and `Peek(5)` returns `ErrBufferFull`, leaving the state
untouched, for both Reader and Writer. -/
theorem c7_peek_validation_witness :
    crVal.Peek (-1) = (([], some Err.negativeCount), crVal) ∧
    crVal.Peek 5 = (([], some Err.bufferFull), crVal) ∧
    cwVal.Peek (-1) = (([], some Err.negativeCount), cwVal) ∧
    cwVal.Peek 5 = (([], some Err.bufferFull), cwVal) :=
  ⟨c7_peek_validation.1 crVal (-1) (by decide),
   c7_peek_validation.2.1 crVal 5 (by decide),
   c7_peek_validation.2.2.1 cwVal (-1) (by decide),
   c7_peek_validation.2.2.2 cwVal 5 (by decide)⟩

/- ===================== Writer sticky error (C2) ===================== -/

theorem streamWrite_le (s : WStream) (p : List Nat) : (streamWrite s p).1 ≤ p.length := by
  cases s <;> simp [streamWrite]

theorem listCopy_zero (dst src : List Nat) (h : src.length ≤ dst.length) :
    listCopy dst 0 src = src ++ dst.drop src.length := by
  simp [listCopy, List.take_of_length_le h]

/-- On a flush that reports an error, the error is stored permanently, the
pending count only shrinks, and the still-pending bytes are exactly the
unwritten tail of the previously pending bytes, compacted to the start. -/
theorem compaction_take (buf : List Nat) (bn k : Nat) (hn : bn ≤ buf.length) (hk : k ≤ bn) :
    List.take (bn - k)
      (if 0 < k ∧ k < bn then listCopy buf 0 (List.take (bn - k) (List.drop k buf)) else buf)
    = List.drop k (List.take bn buf) := by
  rw [List.drop_take]
  by_cases hc : 0 < k ∧ k < bn
  · rw [if_pos hc]
    have hsl : (List.take (bn - k) (List.drop k buf)).length = bn - k := by
      simp; omega
    rw [listCopy_zero _ _ (by rw [hsl]; omega)]
    rw [List.take_append_of_le_length (by rw [hsl])]
    rw [List.take_of_length_le (le_of_eq hsl)]
  · rw [if_neg hc]
    have : k = 0 ∨ k = bn := by omega
    rcases this with h | h <;> subst h <;> simp

/-- On a flush that reports an error, the error is stored permanently, the
pending count only shrinks, and the still-pending bytes are exactly the
unwritten tail of the previously pending bytes, compacted to the start. -/
theorem flush_err_state (b : Writer) (e' : Err) (b' : Writer)
    (hn : b.n ≤ b.buf.length) (he : b.err = none)
    (h : b.flush = (some e', b')) :
    b'.err = some e' ∧ b'.n ≤ b.n ∧
    b'.buf.take b'.n = (b.buf.take b.n).drop (b.n - b'.n) := by
  have hlen : (b.buf.take b.n).length = b.n := by simp [hn]
  have hk : (streamWrite b.wr (b.buf.take b.n)).1 ≤ b.n := by
    simpa [hlen] using streamWrite_le b.wr (b.buf.take b.n)
  rcases hs : streamWrite b.wr (b.buf.take b.n) with ⟨k, e, s'⟩
  rw [hs] at hk
  replace hk : k ≤ b.n := hk
  simp only [Writer.flush, he, hs] at h
  by_cases h0 : b.n = 0
  · rw [if_pos h0] at h
    exact absurd (congrArg Prod.fst h) (by simp)
  rw [if_neg h0] at h
  split at h
  · rw [Prod.mk.injEq] at h
    obtain ⟨h1, h2⟩ := h
    subst h2
    refine ⟨by simpa using h1, Nat.sub_le _ _, ?_⟩
    simp only
    rw [show b.n - (b.n - k) = k from by omega]
    exact compaction_take b.buf b.n k hn hk
  · rw [Prod.mk.injEq] at h
    exact absurd h.1 (by simp)

/-- When the stream accepts fewer bytes than pending with no explicit error,
`flush` synthesizes the short-write error. -/
theorem flush_short_write (b : Writer) (hn0 : 0 < b.n) (he : b.err = none)
    (hke : (streamWrite b.wr (b.buf.take b.n)).2.1 = none)
    (hkl : (streamWrite b.wr (b.buf.take b.n)).1 < b.n) :
    (b.flush).1 = some Err.shortWrite := by
  rcases hs : streamWrite b.wr (b.buf.take b.n) with ⟨k, e, s'⟩
  rw [hs] at hke hkl
  replace hke : e = none := hke
  replace hkl : k < b.n := hkl
  subst hke
  simp only [Writer.flush, he, hs]
  rw [if_neg (by omega : ¬ b.n = 0)]
  rw [if_pos ⟨hkl, trivial⟩]

theorem writeLoop_sticky (b : Writer) (e : Err) (he : b.err = some e)
    (p : List Nat) (nn fuel : Nat) :
    writeLoop b p nn (fuel + 1) = ((nn, some e), b) := by
  simp [writeLoop, he]

/-- With the sticky error set, `Write` returns it at once, accepting no
bytes, changing nothing and never touching the stream. -/
theorem write_sticky (b : Writer) (e : Err) (he : b.err = some e) (p : List Nat) :
    b.Write p = ((0, some e), b) :=
  writeLoop_sticky b e he p 0 (b.wr.length + p.length + 1)

/-- With the sticky error set, `Flush` returns it and changes nothing. -/
theorem flush_sticky (b : Writer) (e : Err) (he : b.err = some e) :
    b.Flush = (some e, b) := by
  simp [Writer.Flush, Writer.flush, he]

theorem wpeekLoop_sticky (b : Writer) (e : Err) (he : b.err = some e) (n fuel : Nat) :
    wpeekLoop b n (fuel + 1) = b := by
  simp [wpeekLoop, he]

/-- With the sticky error set, `Peek` with a valid count returns it and
changes nothing. -/
theorem wpeek_sticky (b : Writer) (e : Err) (he : b.err = some e) (n : Int)
    (h0 : 0 ≤ n) (hcap : n ≤ (b.buf.length : Int)) :
    b.Peek n = (([], some e), b) := by
  rw [Writer.Peek, if_neg (by omega), if_neg (by omega)]
  simp only [wpeekLoop_sticky b e he, he]

/-- A writer about to suffer a short write: 3 bytes pending, stream accepts 1. -/
def cwShort : Writer := { err := none, buf := [1, 2, 3, 4], n := 3, wr := [⟨1, none⟩] }

/-- The writer `cwShort` ends up as after its failing flush. -/
def cwErrW : Writer := { err := some Err.shortWrite, buf := [2, 3, 3, 4], n := 2, wr := [] }

/-- C2 as stated is false: after a flush error the sticky error is set, yet a
subsequent `Peek` with a negative count returns `ErrNegativeCount`, not the
stored error. -/
theorem c2_counterexample :
    (cwShort.flush).1 = some Err.shortWrite ∧
    ((cwShort.flush).2).err = some Err.shortWrite ∧
    (((cwShort.flush).2).Peek (-1)).1.2 = some Err.negativeCount ∧
    some Err.negativeCount ≠ some Err.shortWrite := by
  decide

/-- C2 (amended): when `flush` encounters an error — including the
synthesized short-write error — the unwritten remainder is compacted to the
start of the buffer and the error is stored permanently; every subsequent
`Write` and `Flush`, and every `Peek` with a count in `[0, capacity]`,
returns the same error with the writer unchanged (so the wrapped stream is
not called again), until `Reset` or `ResetBuffer` clears it.  (`Peek` with a
negative or over-capacity count returns `NegativeCount`/`BufferFull`
instead.) -/
theorem c2_writer_sticky :
    (∀ (b : Writer) (e' : Err) (b' : Writer), b.n ≤ b.buf.length → b.err = none →
      b.flush = (some e', b') →
      b'.err = some e' ∧ b'.n ≤ b.n ∧
      b'.buf.take b'.n = (b.buf.take b.n).drop (b.n - b'.n)) ∧
    (∀ b : Writer, 0 < b.n → b.err = none →
      (streamWrite b.wr (b.buf.take b.n)).2.1 = none →
      (streamWrite b.wr (b.buf.take b.n)).1 < b.n →
      (b.flush).1 = some Err.shortWrite) ∧
    (∀ (b : Writer) (e : Err), b.err = some e →
      (∀ p, b.Write p = ((0, some e), b)) ∧
      b.Flush = (some e, b) ∧
      (∀ n : Int, 0 ≤ n → n ≤ (b.buf.length : Int) → b.Peek n = (([], some e), b))) ∧
    (∀ (b : Writer) (w : WStream) (buf : List Nat),
      (b.Reset w).err = none ∧ (b.ResetBuffer w buf).err = none) := by
  refine ⟨flush_err_state, fun b h0 he hke hkl => flush_short_write b h0 he hke hkl,
          fun b e he => ⟨write_sticky b e he, flush_sticky b e he,
                         fun n hn hcap => wpeek_sticky b e he n hn hcap⟩,
          fun b w buf => ⟨rfl, rfl⟩⟩

/-- Witness for C2 at the concrete short-write scenario `cwShort`: the
failing flush stores `shortWrite` and compacts, and on the errored writer
every `Write`, `Flush` and in-range `Peek` returns the stored error with
the writer untouched, while `Reset`/`ResetBuffer` clear it. -/
theorem c2_writer_sticky_witness :
    (cwErrW.err = some Err.shortWrite ∧ cwErrW.n ≤ cwShort.n ∧
      cwErrW.buf.take cwErrW.n = (cwShort.buf.take cwShort.n).drop (cwShort.n - cwErrW.n)) ∧
    (cwShort.flush).1 = some Err.shortWrite ∧
    cwErrW.Write [5] = ((0, some Err.shortWrite), cwErrW) ∧
    cwErrW.Flush = (some Err.shortWrite, cwErrW) ∧
    cwErrW.Peek 2 = (([], some Err.shortWrite), cwErrW) ∧
    (cwErrW.Reset []).err = none ∧ (cwErrW.ResetBuffer [] []).err = none :=
  ⟨c2_writer_sticky.1 cwShort Err.shortWrite cwErrW (by decide) (by decide) (by decide),
   c2_writer_sticky.2.1 cwShort (by decide) (by decide) (by decide) (by decide),
   (c2_writer_sticky.2.2.1 cwErrW Err.shortWrite (by decide)).1 [5],
   (c2_writer_sticky.2.2.1 cwErrW Err.shortWrite (by decide)).2.1,
   (c2_writer_sticky.2.2.1 cwErrW Err.shortWrite (by decide)).2.2 2 (by decide) (by decide),
   (c2_writer_sticky.2.2.2 cwErrW [] []).1,
   (c2_writer_sticky.2.2.2 cwErrW [] []).2⟩

/- ===================== ReadBytes bypass (C5, C10) ===================== -/

/-- A 4-byte reader whose stream yields two 3-byte chunks. -/
def crFresh : Reader :=
  { buf := [0, 0, 0, 0], rd := [⟨[1, 2, 3], none⟩, ⟨[4, 5, 6], none⟩],
    r := 0, w := 0, err := none, panicked := false }

/-- C5: `ReadBytes`/`ReadString` read with a full-read loop directly from the
wrapped stream: their result depends only on the stream (never on the bytes
already buffered) and they leave `buf`, `r` and `w` untouched.  In
particular, on `crFresh`, `ReadBytes(3)` right after `Peek(3)` returns the
*next* 3 stream bytes `[4,5,6]`, not the buffered `[1,2,3]`, which stay
buffered. -/
theorem c5_readbytes_direct :
    (∀ (st : Reader) (n : Nat),
      (st.ReadBytes n).2.buf = st.buf ∧ (st.ReadBytes n).2.r = st.r ∧
      (st.ReadBytes n).2.w = st.w ∧
      (st.ReadBytes n).1.1 =
        (readFull st.rd n).1 ++ List.replicate (n - (readFull st.rd n).1.length) 0 ∧
      (st.ReadBytes n).1.2 = (readFull st.rd n).2.1) ∧
    (∀ (st1 st2 : Reader) (n : Nat), st1.rd = st2.rd →
      (st1.ReadBytes n).1 = (st2.ReadBytes n).1 ∧
      (st1.ReadString n).1 = (st2.ReadString n).1) ∧
    ((crFresh.Peek 3).1 = ([1, 2, 3], none) ∧
      ((crFresh.Peek 3).2.ReadBytes 3).1 = ([4, 5, 6], none) ∧
      ((crFresh.Peek 3).2.ReadBytes 3).2.r = (crFresh.Peek 3).2.r ∧
      ((crFresh.Peek 3).2.ReadBytes 3).2.w = (crFresh.Peek 3).2.w ∧
      ((crFresh.Peek 3).2.ReadBytes 3).2.buf = (crFresh.Peek 3).2.buf ∧
      ((crFresh.Peek 3).2.ReadBytes 3).2.Buffered = 3) := by
  refine ⟨fun st n => ⟨rfl, rfl, rfl, rfl, rfl⟩, fun st1 st2 n h => ?_, by decide⟩
  have hb : (st1.ReadBytes n).1 = (st2.ReadBytes n).1 := by
    simp [Reader.ReadBytes, h]
  refine ⟨hb, ?_⟩
  rcases hr1 : st1.ReadBytes n with ⟨⟨b1, e1⟩, s1⟩
  rcases hr2 : st2.ReadBytes n with ⟨⟨b2, e2⟩, s2⟩
  rw [hr1, hr2] at hb
  obtain ⟨hbb, hbe⟩ := Prod.mk.injEq .. ▸ hb
  subst hbb; subst hbe
  cases e1 with
  | none => simp [Reader.ReadString, hr1, hr2]
  | some e => simp [Reader.ReadString, hr1, hr2]

theorem c5_readbytes_direct_witness :
    ((⟨[9, 9], [⟨[1], none⟩], 0, 2, none, false⟩ : Reader).ReadBytes 1).1 =
      ((⟨[0, 0], [⟨[1], none⟩], 1, 1, some Err.eof, true⟩ : Reader).ReadBytes 1).1 :=
  (c5_readbytes_direct.2.1 ⟨[9, 9], [⟨[1], none⟩], 0, 2, none, false⟩
    ⟨[0, 0], [⟨[1], none⟩], 1, 1, some Err.eof, true⟩ 1 rfl).1

theorem peekFillLoop_err (st : Reader) (e : Err) (he : st.err = some e)
    (n fuel : Nat) : peekFillLoop st n fuel = st := by
  cases fuel with
  | zero => rfl
  | succ f => simp [peekFillLoop, he]

/-- With a pending sticky error and fewer than `n` buffered bytes, `Peek`
reports the stored error once — returning the short window — without any
stream read, and clears it. -/
theorem peek_reports_sticky (st : Reader) (e : Err) (n : Int)
    (he : st.err = some e) (h0 : 0 ≤ n) (hcap : n ≤ (st.buf.length : Int))
    (hav : st.w - st.r < n.toNat) :
    st.Peek n = (((st.buf.drop st.r).take (st.w - st.r), some e), {st with err := none}) := by
  rw [Reader.Peek, if_neg (by omega), if_neg (by omega),
      peekFillLoop_err st e he, if_pos hav]
  simp [Reader.readErr, he]

/-- Same situation for `Pop`: the stored error is reported and cleared. -/
theorem pop_reports_sticky (st : Reader) (e : Err) (n : Int)
    (he : st.err = some e) (h0 : 0 ≤ n) (hcap : n ≤ (st.buf.length : Int))
    (hav : st.w - st.r < n.toNat) :
    st.Pop n = (([], some e), {st with err := none}) := by
  rw [Reader.Pop, peek_reports_sticky st e n he h0 hcap hav]

/-- Same situation for `Read` on an empty buffer: the stored error is
reported and cleared, with no stream read. -/
theorem read_reports_sticky (st : Reader) (e : Err) (plen : Nat)
    (he : st.err = some e) (hrw : st.r = st.w) (h0 : 0 < plen) :
    st.Read plen = (([], some e), {st with err := none}) := by
  rw [Reader.Read, if_neg (by omega), if_pos hrw, if_pos (by simp [he])]
  simp [Reader.readErr, he]

/-- The reader left behind by a failed direct full-read whose error is about
to be mis-reported by `Discard`. -/
def crC10 : Reader :=
  { buf := [0, 0, 0, 0], rd := [⟨[], some (Err.other 5)⟩, ⟨[], some Err.eof⟩],
    r := 0, w := 0, err := none, panicked := false }

/-- C10 as stated is false for `Discard`: after `ReadBytes` fails storing
`other 5`, the next `Discard` performs a fresh stream read (via `fill`),
which overwrites the stored error, and reports `eof` instead of `other 5`. -/
theorem c10_counterexample :
    (crC10.ReadBytes 2).1.2 = some (Err.other 5) ∧
    (crC10.ReadBytes 2).2.err = some (Err.other 5) ∧
    ((crC10.ReadBytes 2).2.Discard 1).1 = (0, some Err.eof) ∧
    some Err.eof ≠ some (Err.other 5) := by
  decide

/-- An errored reader with data still pending on its stream. -/
def crErr : Reader :=
  { buf := [0, 0, 0, 0], rd := [⟨[7], none⟩], r := 0, w := 0,
    err := some (Err.other 5), panicked := false }

/-- C10 (amended): `ReadBytes` always overwrites the sticky-error field with
the result of its direct full-read — a failed `ReadBytes` stores the
stream's error so that the next `Peek` or `Pop` needing more than the
buffered bytes, or `Read` on an empty buffer, reports that same error once
with no stream read, and a successful `ReadBytes` clears any pending sticky
error; `Discard`, however, refills from the stream before consulting the
stored error and can overwrite it. -/
theorem c10_readbytes_sticky :
    (∀ (st : Reader) (n : Nat), (st.ReadBytes n).2.err = (st.ReadBytes n).1.2) ∧
    (∀ (st : Reader) (e : Err) (n : Int),
      st.err = some e → 0 ≤ n → n ≤ (st.buf.length : Int) → st.w - st.r < n.toNat →
      st.Peek n = (((st.buf.drop st.r).take (st.w - st.r), some e), {st with err := none}) ∧
      st.Pop n = (([], some e), {st with err := none})) ∧
    (∀ (st : Reader) (e : Err) (plen : Nat),
      st.err = some e → st.r = st.w → 0 < plen →
      st.Read plen = (([], some e), {st with err := none})) :=
  ⟨fun _ _ => rfl,
   fun st e n he h0 hcap hav =>
     ⟨peek_reports_sticky st e n he h0 hcap hav,
      pop_reports_sticky st e n he h0 hcap hav⟩,
   fun st e plen he hrw h0 => read_reports_sticky st e plen he hrw h0⟩

/-- Witness for C10: `ReadBytes` stores its returned error on a concrete
failing stream, and on the concrete errored reader `crErr` a `Peek(1)`,
`Pop(1)` and `Read(1)` each report the stored error and clear it without
consuming the stream. -/
theorem c10_readbytes_sticky_witness :
    (crC10.ReadBytes 2).2.err = (crC10.ReadBytes 2).1.2 ∧
    crErr.Peek 1 = (([], some (Err.other 5)), {crErr with err := none}) ∧
    crErr.Pop 1 = (([], some (Err.other 5)), {crErr with err := none}) ∧
    crErr.Read 1 = (([], some (Err.other 5)), {crErr with err := none}) :=
  ⟨c10_readbytes_sticky.1 crC10 2,
   (c10_readbytes_sticky.2.1 crErr (Err.other 5) 1 rfl (by decide) (by decide) (by decide)).1,
   (c10_readbytes_sticky.2.1 crErr (Err.other 5) 1 rfl (by decide) (by decide) (by decide)).2,
   c10_readbytes_sticky.2.2 crErr (Err.other 5) 1 rfl rfl (by decide)⟩

/- ===================== Reader sticky-once error (C1) ===================== -/

/-- Whenever `Peek` with a valid count returns an error, the stored error is
nil afterwards. -/
theorem peek_err_clears (st : Reader) (n : Int) (h0 : 0 ≤ n)
    (hcap : n ≤ (st.buf.length : Int)) (d : List Nat) (e : Err) (st' : Reader)
    (h : st.Peek n = ((d, some e), st')) : st'.err = none := by
  rw [Reader.Peek, if_neg (by omega), if_neg (by omega)] at h
  by_cases hav : (peekFillLoop st n.toNat n.toNat).w - (peekFillLoop st n.toNat n.toNat).r < n.toNat
  · rw [if_pos hav] at h
    have h2 := congrArg (fun x => x.2.err) h
    simp only [Reader.readErr] at h2
    exact h2.symm
  · rw [if_neg hav] at h
    exact absurd (congrArg (fun x => x.1.2) h) (by simp)

/-- Whenever `Pop` with a valid count returns an error, the stored error is
nil afterwards. -/
theorem pop_err_clears (st : Reader) (n : Int) (h0 : 0 ≤ n)
    (hcap : n ≤ (st.buf.length : Int)) (d : List Nat) (e : Err) (st' : Reader)
    (h : st.Pop n = ((d, some e), st')) : st'.err = none := by
  rw [Reader.Pop] at h
  rcases hp : st.Peek n with ⟨⟨d1, e1⟩, s1⟩
  rw [hp] at h
  cases e1 with
  | none => simp at h
  | some e2 =>
    simp only at h
    have hs : s1 = st' := congrArg Prod.snd h
    rw [← hs]
    exact peek_err_clears st n h0 hcap d1 e2 s1 hp

/-- Whenever `Read` returns an error, the stored error is nil afterwards. -/
theorem read_err_clears (st : Reader) (plen : Nat) (d : List Nat) (e : Err)
    (st' : Reader) (h : st.Read plen = ((d, some e), st')) : st'.err = none := by
  rw [Reader.Read] at h
  by_cases hp0 : plen = 0
  · rw [if_pos hp0] at h
    have h2 := congrArg (fun x => x.2.err) h
    simp only [Reader.readErr] at h2
    exact h2.symm
  rw [if_neg hp0] at h
  by_cases hrw : st.r = st.w
  · rw [if_pos hrw] at h
    by_cases he : st.err ≠ none
    · rw [if_pos he] at h
      have h2 := congrArg (fun x => x.2.err) h
      simp only [Reader.readErr] at h2
      exact h2.symm
    rw [if_neg he] at h
    by_cases hbig : plen ≥ st.buf.length
    · rw [if_pos hbig] at h
      have h2 := congrArg (fun x => x.2.err) h
      simp only [Reader.readErr] at h2
      exact h2.symm
    rw [if_neg hbig] at h
    by_cases hfe : st.fill.r = st.fill.w
    · rw [if_pos hfe] at h
      have h2 := congrArg (fun x => x.2.err) h
      simp only [Reader.readErr] at h2
      exact h2.symm
    · rw [if_neg hfe] at h
      exact absurd (congrArg (fun x => x.1.2) h) (by simp)
  · rw [if_neg hrw] at h
    exact absurd (congrArg (fun x => x.1.2) h) (by simp)

theorem discardLoop_err_clears (fuel : Nat) :
    ∀ (st : Reader) (n remain k : Nat) (e : Err) (st' : Reader),
    discardLoop st n remain fuel = ((k, some e), st') → st'.err = none := by
  induction fuel with
  | zero =>
    intro st n remain k e st' h
    exact absurd (congrArg (fun x => x.1.2) h) (by simp [discardLoop])
  | succ f ih =>
    intro st n remain k e st' h
    rw [discardLoop] at h
    generalize hg : (if st.Buffered = 0 then st.fill else st) = st1 at h
    simp only at h
    by_cases hr0 : remain - min st1.Buffered remain = 0
    · rw [if_pos hr0] at h
      exact absurd (congrArg (fun x => x.1.2) h) (by simp)
    rw [if_neg hr0] at h
    split at h
    · have h2 := congrArg (fun x => x.2.err) h
      simp only [Reader.readErr] at h2
      exact h2.symm
    · exact ih _ n _ k e st' h

/-- Whenever `Discard` with a nonnegative count returns an error, the stored
error is nil afterwards. -/
theorem discard_err_clears (st : Reader) (n : Int) (h0 : 0 ≤ n) (k : Nat)
    (e : Err) (st' : Reader) (h : st.Discard n = ((k, some e), st')) :
    st'.err = none := by
  rw [Reader.Discard, if_neg (by omega)] at h
  by_cases hn0 : n = 0
  · rw [if_pos hn0] at h
    exact absurd (congrArg (fun x => x.1.2) h) (by simp)
  · rw [if_neg hn0] at h
    exact discardLoop_err_clears _ st n.toNat n.toNat k e st' h

/-- A reader whose stream immediately fails with a distinctive error. -/
def crC1 : Reader :=
  { buf := [0, 0, 0, 0], rd := [⟨[], some (Err.other 5)⟩], r := 0, w := 0,
    err := none, panicked := false }

/-- A reader whose stream errors once and then has data again. -/
def crRetry : Reader :=
  { buf := [0, 0, 0, 0], rd := [⟨[], some (Err.other 7)⟩, ⟨[1, 2, 3], none⟩],
    r := 0, w := 0, err := none, panicked := false }

/-- C1 as stated is false for `ReadBytes`: it reports the stream's error to
its caller, yet the stored error is *not* nil afterwards — the same error is
then reported a second time by the next `Peek`, i.e. to two callers. -/
theorem c1_counterexample :
    (crC1.ReadBytes 1).1.2 = some (Err.other 5) ∧
    (crC1.ReadBytes 1).2.err = some (Err.other 5) ∧
    ((crC1.ReadBytes 1).2.Peek 1).1.2 = some (Err.other 5) := by
  decide

/-- C1 (amended): for the buffered operations — `Peek` and `Pop` with a
count in `[0, capacity]`, `Read`, and `Discard` with a nonnegative count —
any reported error leaves the stored error nil again, and the next
operation that needs data calls the wrapped stream again rather than
returning the old error (on `crRetry`, the `Peek` after the reported error
returns the stream's fresh bytes).  `ReadBytes`/`ReadString` are the
exception: they overwrite the stored error with their own full-read
result. -/
theorem c1_reader_sticky_once :
    (∀ (st : Reader) (n : Int), 0 ≤ n → n ≤ (st.buf.length : Int) →
      ∀ (d : List Nat) (e : Err) (st' : Reader),
        st.Peek n = ((d, some e), st') → st'.err = none) ∧
    (∀ (st : Reader) (n : Int), 0 ≤ n → n ≤ (st.buf.length : Int) →
      ∀ (d : List Nat) (e : Err) (st' : Reader),
        st.Pop n = ((d, some e), st') → st'.err = none) ∧
    (∀ (st : Reader) (plen : Nat) (d : List Nat) (e : Err) (st' : Reader),
      st.Read plen = ((d, some e), st') → st'.err = none) ∧
    (∀ (st : Reader) (n : Int), 0 ≤ n →
      ∀ (k : Nat) (e : Err) (st' : Reader),
        st.Discard n = ((k, some e), st') → st'.err = none) ∧
    ((crRetry.Peek 2).1 = ([], some (Err.other 7)) ∧
      (crRetry.Peek 2).2.err = none ∧
      ((crRetry.Peek 2).2.Peek 2).1 = ([1, 2], none)) :=
  ⟨fun st n h0 hcap d e st' h => peek_err_clears st n h0 hcap d e st' h,
   fun st n h0 hcap d e st' h => pop_err_clears st n h0 hcap d e st' h,
   fun st plen d e st' h => read_err_clears st plen d e st' h,
   fun st n h0 k e st' h => discard_err_clears st n h0 k e st' h,
   by decide⟩

/-- Witness for C1: on the concrete reader `crRetry`, the first `Peek(2)`
reports the stream's error, the clearing lemma applied to that concrete call
confirms the stored error is nil, and a `Discard(1)` on `crC1` likewise
clears after reporting. -/
theorem c1_reader_sticky_once_witness :
    (crRetry.Peek 2).2.err = none ∧ (crC1.Discard 1).2.err = none :=
  ⟨c1_reader_sticky_once.1 crRetry 2 (by decide) (by decide)
     [] (Err.other 7) (crRetry.Peek 2).2 (by decide),
   c1_reader_sticky_once.2.2.2.1 crC1 1 (by decide)
     0 (Err.other 5) (crC1.Discard 1).2 (by decide)⟩

/- ===================== Bounded fill (C6) ===================== -/

theorem listCopy_length (dst : List Nat) (i : Nat) (src : List Nat)
    (h : i ≤ dst.length) : (listCopy dst i src).length = dst.length := by
  simp [listCopy]
  omega

/-- If the next `i` scripted responses are all empty and error-free, the
bounded read loop exhausts its budget and stores the no-progress error. -/
theorem fillLoop_noProgress (i : Nat) :
    ∀ st : Reader, st.rd.take i = List.replicate i ⟨[], none⟩ →
    (fillLoop st i).err = some Err.noProgress := by
  induction i with
  | zero => intro st _; rfl
  | succ j ih =>
    intro st hs
    cases hrd : st.rd with
    | nil => rw [hrd] at hs; simp at hs
    | cons resp rest =>
      rw [hrd] at hs
      rw [List.take_succ_cons, List.replicate_succ] at hs
      obtain ⟨h1, h2⟩ := List.cons.injEq .. ▸ hs
      subst h1
      rw [fillLoop]
      simp only [streamRead, hrd, List.take_nil, List.length_nil]
      exact ih _ h2

/-- A single scripted response that carries bytes or an error ends the fill
attempt at once: exactly one stream read happens. -/
theorem fillLoop_first_response (st : Reader) (resp : Resp) (rest : RStream)
    (i : Nat) (hrd : st.rd = resp :: rest) (hsp : 0 < st.buf.length - st.w)
    (hne : resp.chunk ≠ [] ∨ resp.err ≠ none) :
    (fillLoop st (i + 1)).rd = rest ∧
    (fillLoop st (i + 1)).err = (if resp.err = none then st.err else resp.err) := by
  rw [fillLoop]
  simp only [streamRead, hrd]
  cases he : resp.err with
  | some e => simp
  | none =>
    have hc : resp.chunk ≠ [] := by
      rcases hne with h | h
      · exact h
      · exact absurd he h
    have hw1 : st.w < st.buf.length := by omega
    have hc1 : 0 < resp.chunk.length := List.length_pos.mpr hc
    simp [hw1, hc1]

/-- C6: with a wellformed, non-full reader, a stream answering with zero
bytes and no error `maxConsecutiveEmptyReads` (= 100) consecutive times
makes `fill` terminate with the no-progress error, while a first response
carrying any bytes or any error ends the fill attempt after exactly one
stream read. -/
theorem c6_fill_bounded :
    (∀ st : Reader, st.r ≤ st.w → st.w - st.r < st.buf.length → st.panicked = false →
      st.rd.take maxConsecutiveEmptyReads =
        List.replicate maxConsecutiveEmptyReads ⟨[], none⟩ →
      (st.fill).err = some Err.noProgress) ∧
    (∀ (st : Reader) (resp : Resp) (rest : RStream),
      st.r ≤ st.w → st.w - st.r < st.buf.length → st.panicked = false →
      st.err = none → st.rd = resp :: rest →
      resp.chunk ≠ [] ∨ resp.err ≠ none →
      (st.fill).rd = rest ∧ (st.fill).err = resp.err) := by
  constructor
  · intro st hr hw hp hs
    rw [Reader.fill, hp]
    simp only [Bool.false_eq_true, if_false]
    by_cases hr0 : st.r > 0
    · rw [if_pos hr0]
      rw [if_neg (by simp [listCopy_length]; omega)]
      exact fillLoop_noProgress _ _ hs
    · rw [if_neg hr0]
      rw [if_neg (by omega)]
      exact fillLoop_noProgress _ _ hs
  · intro st resp rest hr hw hp he hrd hne
    rw [Reader.fill, if_neg (by simp [hp])]
    have h100 : maxConsecutiveEmptyReads = 99 + 1 := rfl
    by_cases hr0 : st.r > 0
    · rw [if_pos hr0]
      rw [if_neg (by simp [listCopy_length]; omega)]
      rw [h100]
      have := fillLoop_first_response
        {st with buf := listCopy st.buf 0 ((st.buf.drop st.r).take (st.w - st.r)),
                 w := st.w - st.r, r := 0} resp rest 99 hrd
        (by simp [listCopy_length]; omega) hne
      rcases this with ⟨h1, h2⟩
      refine ⟨h1, ?_⟩
      rw [h2]
      cases hre : resp.err <;> simp [he]
    · rw [if_neg hr0]
      rw [if_neg (by omega)]
      rw [h100]
      have := fillLoop_first_response st resp rest 99 hrd (by omega) hne
      rcases this with ⟨h1, h2⟩
      refine ⟨h1, ?_⟩
      rw [h2]
      cases hre : resp.err <;> simp [he]

/-- A reader facing 100 consecutive empty, error-free responses. -/
def cr100 : Reader :=
  { buf := [0, 0], rd := List.replicate 100 ⟨[], none⟩, r := 0, w := 0,
    err := none, panicked := false }

/-- A reader whose stream has one data response queued. -/
def crData : Reader :=
  { buf := [0, 0], rd := [⟨[9], none⟩, ⟨[], some Err.eof⟩], r := 0, w := 0,
    err := none, panicked := false }

/-- Witness for C6: on `cr100`, `fill` stores the no-progress error; on
`crData`, `fill` consumes exactly the first response and stores no error. -/
theorem c6_fill_bounded_witness :
    (cr100.fill).err = some Err.noProgress ∧
    (crData.fill).rd = [⟨[], some Err.eof⟩] ∧ (crData.fill).err = none :=
  ⟨c6_fill_bounded.1 cr100 (by decide) (by decide) (by decide) (by decide),
   (c6_fill_bounded.2 crData ⟨[9], none⟩ [⟨[], some Err.eof⟩]
      (by decide) (by decide) (by decide) (by decide) rfl (by decide)).1,
   (c6_fill_bounded.2 crData ⟨[9], none⟩ [⟨[], some Err.eof⟩]
      (by decide) (by decide) (by decide) (by decide) rfl (by decide)).2⟩

/- ===================== Failure sentinels (C9) ===================== -/

set_option maxHeartbeats 1600000 in
/-- C9: on failure of the underlying `Pop`/`Peek`, every unsigned and float
read helper returns the zero value with the error, every signed read helper
returns `-1` with the error, and every fixed-width write helper returns
`-1` with the error. -/
theorem c9_failure_sentinels :
    (∀ (st : Reader) (bs : List Nat) (e : Err) (st' : Reader),
      (st.Pop 1 = ((bs, some e), st') →
        st.ReadUint8 = ((0, some e), st') ∧ st.ReadInt8 = ((-1, some e), st')) ∧
      (st.Pop 2 = ((bs, some e), st') →
        st.ReadUint16BE = ((0, some e), st') ∧ st.ReadUint16LE = ((0, some e), st') ∧
        st.ReadInt16BE = ((-1, some e), st') ∧ st.ReadInt16LE = ((-1, some e), st')) ∧
      (st.Pop 4 = ((bs, some e), st') →
        st.ReadUint32BE = ((0, some e), st') ∧ st.ReadUint32LE = ((0, some e), st') ∧
        st.ReadFloat32BE = ((⟨0⟩, some e), st') ∧ st.ReadFloat32LE = ((⟨0⟩, some e), st') ∧
        st.ReadInt32BE = ((-1, some e), st') ∧ st.ReadInt32LE = ((-1, some e), st')) ∧
      (st.Pop 8 = ((bs, some e), st') →
        st.ReadUint64BE = ((0, some e), st') ∧ st.ReadUint64LE = ((0, some e), st') ∧
        st.ReadFloat64BE = ((⟨0⟩, some e), st') ∧ st.ReadFloat64LE = ((⟨0⟩, some e), st') ∧
        st.ReadInt64BE = ((-1, some e), st') ∧ st.ReadInt64LE = ((-1, some e), st'))) ∧
    (∀ (w : Writer) (bs : List Nat) (e : Err) (w' : Writer),
      (w.Peek 1 = ((bs, some e), w') →
        (∀ v, w.WriteUint8 v = ((-1, some e), w')) ∧
        (∀ v, w.WriteInt8 v = ((-1, some e), w'))) ∧
      (w.Peek 2 = ((bs, some e), w') →
        (∀ v, w.WriteUint16BE v = ((-1, some e), w')) ∧
        (∀ v, w.WriteUint16LE v = ((-1, some e), w')) ∧
        (∀ v, w.WriteInt16BE v = ((-1, some e), w')) ∧
        (∀ v, w.WriteInt16LE v = ((-1, some e), w'))) ∧
      (w.Peek 4 = ((bs, some e), w') →
        (∀ v, w.WriteUint32BE v = ((-1, some e), w')) ∧
        (∀ v, w.WriteUint32LE v = ((-1, some e), w')) ∧
        (∀ v, w.WriteFloat32BE v = ((-1, some e), w')) ∧
        (∀ v, w.WriteFloat32LE v = ((-1, some e), w')) ∧
        (∀ v, w.WriteInt32BE v = ((-1, some e), w')) ∧
        (∀ v, w.WriteInt32LE v = ((-1, some e), w'))) ∧
      (w.Peek 8 = ((bs, some e), w') →
        (∀ v, w.WriteUint64BE v = ((-1, some e), w')) ∧
        (∀ v, w.WriteUint64LE v = ((-1, some e), w')) ∧
        (∀ v, w.WriteFloat64BE v = ((-1, some e), w')) ∧
        (∀ v, w.WriteFloat64LE v = ((-1, some e), w')) ∧
        (∀ v, w.WriteInt64BE v = ((-1, some e), w')) ∧
        (∀ v, w.WriteInt64LE v = ((-1, some e), w')) ∧
        (∀ v, w.WriteUintBE v = ((-1, some e), w')) ∧
        (∀ v, w.WriteUintLE v = ((-1, some e), w')))) := by
  constructor
  · intro st bs e st'
    refine ⟨fun h => ?_, fun h => ?_, fun h => ?_, fun h => ?_⟩
    · have h8 : st.ReadUint8 = ((0, some e), st') := by rw [Reader.ReadUint8, h]
      exact ⟨h8, by rw [Reader.ReadInt8, h8]⟩
    · have hbe : st.ReadUint16BE = ((0, some e), st') := by rw [Reader.ReadUint16BE, h]
      have hle : st.ReadUint16LE = ((0, some e), st') := by rw [Reader.ReadUint16LE, h]
      exact ⟨hbe, hle, by rw [Reader.ReadInt16BE, hbe], by rw [Reader.ReadInt16LE, hle]⟩
    · have hbe : st.ReadUint32BE = ((0, some e), st') := by rw [Reader.ReadUint32BE, h]
      have hle : st.ReadUint32LE = ((0, some e), st') := by rw [Reader.ReadUint32LE, h]
      exact ⟨hbe, hle, by rw [Reader.ReadFloat32BE, h], by rw [Reader.ReadFloat32LE, h],
             by rw [Reader.ReadInt32BE, hbe], by rw [Reader.ReadInt32LE, hle]⟩
    · have hbe : st.ReadUint64BE = ((0, some e), st') := by rw [Reader.ReadUint64BE, h]
      have hle : st.ReadUint64LE = ((0, some e), st') := by rw [Reader.ReadUint64LE, h]
      exact ⟨hbe, hle, by rw [Reader.ReadFloat64BE, h], by rw [Reader.ReadFloat64LE, h],
             by rw [Reader.ReadInt64BE, hbe], by rw [Reader.ReadInt64LE, hle]⟩
  · intro w bs e w'
    refine ⟨fun h => ?_, fun h => ?_, fun h => ?_, fun h => ?_⟩
    · have h8 : ∀ v, w.WriteUint8 v = ((-1, some e), w') := fun v => by
        rw [Writer.WriteUint8, h]
      exact ⟨h8, fun v => by rw [Writer.WriteInt8, h8]⟩
    · have hbe : ∀ v, w.WriteUint16BE v = ((-1, some e), w') := fun v => by
        rw [Writer.WriteUint16BE, h]
      have hle : ∀ v, w.WriteUint16LE v = ((-1, some e), w') := fun v => by
        rw [Writer.WriteUint16LE, h]
      exact ⟨hbe, hle, fun v => by rw [Writer.WriteInt16BE, hbe],
             fun v => by rw [Writer.WriteInt16LE, hle]⟩
    · have hbe : ∀ v, w.WriteUint32BE v = ((-1, some e), w') := fun v => by
        rw [Writer.WriteUint32BE, h]
      have hle : ∀ v, w.WriteUint32LE v = ((-1, some e), w') := fun v => by
        rw [Writer.WriteUint32LE, h]
      exact ⟨hbe, hle, fun v => by rw [Writer.WriteFloat32BE, h],
             fun v => by rw [Writer.WriteFloat32LE, h],
             fun v => by rw [Writer.WriteInt32BE, hbe],
             fun v => by rw [Writer.WriteInt32LE, hle]⟩
    · have hbe : ∀ v, w.WriteUint64BE v = ((-1, some e), w') := fun v => by
        rw [Writer.WriteUint64BE, h]
      have hle : ∀ v, w.WriteUint64LE v = ((-1, some e), w') := fun v => by
        rw [Writer.WriteUint64LE, h]
      exact ⟨hbe, hle, fun v => by rw [Writer.WriteFloat64BE, h],
             fun v => by rw [Writer.WriteFloat64LE, h],
             fun v => by rw [Writer.WriteInt64BE, hbe],
             fun v => by rw [Writer.WriteInt64LE, hle],
             fun v => by rw [Writer.WriteUintBE, hbe],
             fun v => by rw [Writer.WriteUintLE, hle]⟩

/-- A wellformed reader over an already-exhausted stream: every `Pop` of a
positive width fails with `eof` and leaves the state unchanged. -/
def crEof : Reader :=
  { buf := List.replicate 8 0, rd := [], r := 0, w := 0,
    err := none, panicked := false }

/-- An errored writer with an 8-byte buffer. -/
def cwErr8 : Writer :=
  { err := some Err.shortWrite, buf := List.replicate 8 0, n := 0, wr := [] }

/-- Witness for C9 on concrete failing instances: the reader helpers return
0 (unsigned/float) or -1 (signed) with `eof`, and the writer helpers return
-1 with the sticky `shortWrite` error. -/
theorem c9_failure_sentinels_witness :
    crEof.ReadUint8 = ((0, some Err.eof), crEof) ∧
    crEof.ReadInt8 = ((-1, some Err.eof), crEof) ∧
    crEof.ReadUint64LE = ((0, some Err.eof), crEof) ∧
    crEof.ReadFloat64BE = ((⟨0⟩, some Err.eof), crEof) ∧
    crEof.ReadInt64LE = ((-1, some Err.eof), crEof) ∧
    cwErrW.WriteUint8 3 = ((-1, some Err.shortWrite), cwErrW) ∧
    cwErr8.WriteFloat64LE ⟨1⟩ = ((-1, some Err.shortWrite), cwErr8) ∧
    cwErr8.WriteInt64BE (-2) = ((-1, some Err.shortWrite), cwErr8) :=
  ⟨((c9_failure_sentinels.1 crEof [] Err.eof crEof).1 (by decide)).1,
   ((c9_failure_sentinels.1 crEof [] Err.eof crEof).1 (by decide)).2,
   ((c9_failure_sentinels.1 crEof [] Err.eof crEof).2.2.2 (by decide)).2.1,
   ((c9_failure_sentinels.1 crEof [] Err.eof crEof).2.2.2 (by decide)).2.2.1,
   ((c9_failure_sentinels.1 crEof [] Err.eof crEof).2.2.2 (by decide)).2.2.2.2.2,
   ((c9_failure_sentinels.2 cwErrW [] Err.shortWrite cwErrW).1 (by decide)).1 3,
   ((c9_failure_sentinels.2 cwErr8 [] Err.shortWrite cwErr8).2.2.2 (by decide)).2.2.2.1 ⟨1⟩,
   ((c9_failure_sentinels.2 cwErr8 [] Err.shortWrite cwErr8).2.2.2 (by decide)).2.2.2.2.1 (-2)⟩

/- ===================== Pop is Peek plus advance (C8) ===================== -/

theorem streamRead_chunk_le (s : RStream) (cap : Nat) :
    (streamRead s cap).1.length ≤ cap := by
  cases s <;> simp [streamRead]

/-- The bounded read loop preserves the buffer's length, never moves `r`,
only grows `w`, and keeps `w` within the buffer. -/
theorem fillLoop_wf (fuel : Nat) :
    ∀ st : Reader, st.w ≤ st.buf.length →
    (fillLoop st fuel).buf.length = st.buf.length ∧
    (fillLoop st fuel).r = st.r ∧
    st.w ≤ (fillLoop st fuel).w ∧
    (fillLoop st fuel).w ≤ (fillLoop st fuel).buf.length := by
  induction fuel with
  | zero => intro st hw; exact ⟨rfl, rfl, le_refl _, hw⟩
  | succ f ih =>
    intro st hw
    rw [fillLoop]
    have hchunk := streamRead_chunk_le st.rd (st.buf.length - st.w)
    have hlen : (listCopy st.buf st.w (streamRead st.rd (st.buf.length - st.w)).1).length
        = st.buf.length := listCopy_length _ _ _ hw
    have hw1 : st.w + (streamRead st.rd (st.buf.length - st.w)).1.length ≤
        (listCopy st.buf st.w (streamRead st.rd (st.buf.length - st.w)).1).length := by
      rw [hlen]; omega
    cases he : (streamRead st.rd (st.buf.length - st.w)).2.1 with
    | some e => exact ⟨hlen, rfl, by simp, hw1⟩
    | none =>
      by_cases hc : 0 < (streamRead st.rd (st.buf.length - st.w)).1.length
      · rw [if_pos hc]
        exact ⟨hlen, rfl, by simp, hw1⟩
      · rw [if_neg hc]
        have := ih { st with rd := (streamRead st.rd (st.buf.length - st.w)).2.2,
                             buf := listCopy st.buf st.w (streamRead st.rd (st.buf.length - st.w)).1,
                             w := st.w + (streamRead st.rd (st.buf.length - st.w)).1.length } hw1
        refine ⟨by rw [this.1, hlen], this.2.1, le_trans (by simp) this.2.2.1, this.2.2.2⟩

/-- `fill` preserves the buffer's length and wellformedness, and never
shrinks the number of buffered bytes. -/
theorem fill_wf (st : Reader) (hr : st.r ≤ st.w) (hw : st.w ≤ st.buf.length) :
    (st.fill).buf.length = st.buf.length ∧
    (st.fill).r ≤ (st.fill).w ∧
    (st.fill).w ≤ (st.fill).buf.length ∧
    st.w - st.r ≤ (st.fill).w - (st.fill).r := by
  rw [Reader.fill]
  by_cases hp : st.panicked
  · rw [if_pos hp]
    exact ⟨rfl, hr, hw, le_refl _⟩
  rw [if_neg hp]
  by_cases hr0 : st.r > 0
  · rw [if_pos hr0]
    have hlen0 : (listCopy st.buf 0 ((st.buf.drop st.r).take (st.w - st.r))).length
        = st.buf.length := listCopy_length _ _ _ (Nat.zero_le _)
    by_cases hg : st.w - st.r ≥ (listCopy st.buf 0 ((st.buf.drop st.r).take (st.w - st.r))).length
    · rw [if_pos hg]
      rw [hlen0] at hg
      refine ⟨hlen0, by omega, ?_, by omega⟩
      simp only [hlen0]
      omega
    · rw [if_neg hg]
      have := fillLoop_wf maxConsecutiveEmptyReads
        { st with buf := listCopy st.buf 0 ((st.buf.drop st.r).take (st.w - st.r)),
                  w := st.w - st.r, r := 0 } (by simp only [hlen0] at hg ⊢; omega)
      refine ⟨by rw [this.1, hlen0], ?_, this.2.2.2, ?_⟩
      · rw [this.2.1]; exact Nat.zero_le _
      · rw [this.2.1]
        have := this.2.2.1
        simp only at this ⊢
        omega
  · rw [if_neg hr0]
    by_cases hg : st.w ≥ st.buf.length
    · rw [if_pos hg]
      exact ⟨rfl, hr, hw, le_refl _⟩
    · rw [if_neg hg]
      have := fillLoop_wf maxConsecutiveEmptyReads st hw
      have hr00 : st.r = 0 := by omega
      refine ⟨this.1, ?_, this.2.2.2, ?_⟩
      · rw [this.2.1]; omega
      · rw [this.2.1]
        have := this.2.2.1
        omega

/-- The `Peek` fill loop preserves the buffer's length and wellformedness. -/
theorem peekFillLoop_wf (n : Nat) (fuel : Nat) :
    ∀ st : Reader, st.r ≤ st.w → st.w ≤ st.buf.length →
    (peekFillLoop st n fuel).buf.length = st.buf.length ∧
    (peekFillLoop st n fuel).r ≤ (peekFillLoop st n fuel).w ∧
    (peekFillLoop st n fuel).w ≤ (peekFillLoop st n fuel).buf.length := by
  induction fuel with
  | zero => intro st hr hw; exact ⟨rfl, hr, hw⟩
  | succ f ih =>
    intro st hr hw
    rw [peekFillLoop]
    split
    · have hfw := fill_wf st hr hw
      have hih := ih st.fill hfw.2.1 hfw.2.2.1
      exact ⟨by rw [hih.1, hfw.1], hih.2.1, hih.2.2⟩
    · exact ⟨rfl, hr, hw⟩

theorem peekFillLoop_ge (st : Reader) (n fuel : Nat) (hav : n ≤ st.w - st.r) :
    peekFillLoop st n fuel = st := by
  cases fuel with
  | zero => rfl
  | succ f => rw [peekFillLoop, if_neg (by omega)]

/-- With `n` bytes already buffered, `Peek` succeeds immediately with the
current window and an unchanged state. -/
theorem peek_noFill (st : Reader) (n : Int) (h0 : ¬ n < 0)
    (hcap : ¬ n > (st.buf.length : Int)) (hav : n.toNat ≤ st.w - st.r) :
    st.Peek n = (((st.buf.drop st.r).take n.toNat, none), st) := by
  rw [Reader.Peek, if_neg h0, if_neg hcap, peekFillLoop_ge st n.toNat n.toNat hav,
      if_neg (by omega)]

/-- A successful `Peek` is exactly the fill loop followed by the window at
the final cursor, with at least `n` bytes available. -/
theorem peek_success_char (st : Reader) (n : Int) (d : List Nat) (st' : Reader)
    (h : st.Peek n = ((d, none), st')) :
    ¬ n < 0 ∧ ¬ n > (st.buf.length : Int) ∧ st' = peekFillLoop st n.toNat n.toNat ∧
    n.toNat ≤ st'.w - st'.r ∧ d = (st'.buf.drop st'.r).take n.toNat := by
  rw [Reader.Peek] at h
  by_cases hn0 : n < 0
  · rw [if_pos hn0] at h
    exact absurd (congrArg (fun x => x.1.2) h) (by simp)
  rw [if_neg hn0] at h
  by_cases hcap : n > (st.buf.length : Int)
  · rw [if_pos hcap] at h
    exact absurd (congrArg (fun x => x.1.2) h) (by simp)
  rw [if_neg hcap] at h
  by_cases hav : (peekFillLoop st n.toNat n.toNat).w - (peekFillLoop st n.toNat n.toNat).r < n.toNat
  · rw [if_pos hav] at h
    have h2 := congrArg (fun x => x.1.2) h
    simp only [Reader.readErr] at h2
    cases hE : (peekFillLoop st n.toNat n.toNat).err <;> rw [hE] at h2 <;> simp at h2
  · rw [if_neg hav] at h
    have h1 := congrArg (fun x => x.1.1) h
    have h2 := congrArg Prod.snd h
    simp only at h1 h2
    refine ⟨hn0, hcap, h2.symm, ?_, ?_⟩
    · rw [← h2]; omega
    · rw [← h2]; exact h1.symm

/-- C8: `Pop(n)` is `Peek(n)` followed by advancing the read cursor by `n`
on success, and on failure it advances nothing and returns the same error;
moreover on a wellformed reader a `Peek(n)` followed immediately by `Pop(n)`
returns the identical byte sequence and advances the cursor by exactly
`n`. -/
theorem c8_pop_is_peek_then_advance :
    (∀ (st : Reader) (n : Int) (d : List Nat) (st' : Reader),
      st.Peek n = ((d, none), st') →
      st.Pop n = ((d, none), {st' with r := st'.r + n.toNat})) ∧
    (∀ (st : Reader) (n : Int) (d : List Nat) (e : Err) (st' : Reader),
      st.Peek n = ((d, some e), st') → st.Pop n = (([], some e), st')) ∧
    (∀ (st : Reader) (n : Int) (d : List Nat) (st' : Reader),
      st.r ≤ st.w → st.w ≤ st.buf.length →
      st.Peek n = ((d, none), st') →
      st'.Pop n = ((d, none), {st' with r := st'.r + n.toNat})) := by
  refine ⟨fun st n d st' h => by rw [Reader.Pop, h],
          fun st n d e st' h => by rw [Reader.Pop, h],
          fun st n d st' hr hw h => ?_⟩
  obtain ⟨hn0, hcap, hst, hav, hd⟩ := peek_success_char st n d st' h
  have hwf := peekFillLoop_wf n.toNat n.toNat st hr hw
  rw [← hst] at hwf
  have hpeek : st'.Peek n = ((d, none), st') := by
    rw [peek_noFill st' n hn0 (by rw [hwf.1]; exact hcap) hav, ← hd]
  rw [Reader.Pop, hpeek]

/-- Witness for C8 on the concrete reader `crFresh`: `Peek(3)` succeeds, the
following `Pop(3)` returns the identical bytes `[1,2,3]`, and the cursor
advances from 0 to 3. -/
theorem c8_pop_is_peek_then_advance_witness :
    (crFresh.Peek 3).2.Pop 3 =
      (([1, 2, 3], none), {(crFresh.Peek 3).2 with r := (crFresh.Peek 3).2.r + 3}) ∧
    (crFresh.Peek 3).2.r = 0 :=
  ⟨c8_pop_is_peek_then_advance.2.2 crFresh 3 [1, 2, 3] (crFresh.Peek 3).2
     (by decide) (by decide) (by decide),
   by decide⟩

/- ===================== Read never returns (0, nil) (C3) ===================== -/

/-- The bounded read loop either stores an error or strictly grows `w`. -/
theorem fillLoop_progress (fuel : Nat) :
    ∀ st : Reader, (fillLoop st fuel).err ≠ none ∨ st.w < (fillLoop st fuel).w := by
  induction fuel with
  | zero => intro st; left; simp [fillLoop]
  | succ f ih =>
    intro st
    rw [fillLoop]
    cases he : (streamRead st.rd (st.buf.length - st.w)).2.1 with
    | some e => left; simp
    | none =>
      by_cases hc : 0 < (streamRead st.rd (st.buf.length - st.w)).1.length
      · rw [if_pos hc]
        right; simp; omega
      · rw [if_neg hc]
        rcases ih { st with rd := (streamRead st.rd (st.buf.length - st.w)).2.2,
                            buf := listCopy st.buf st.w (streamRead st.rd (st.buf.length - st.w)).1,
                            w := st.w + (streamRead st.rd (st.buf.length - st.w)).1.length } with h | h
        · exact Or.inl h
        · right
          refine lt_of_le_of_lt ?_ h
          simp
  
/-- On a wellformed, non-full reader, `fill` either stores an error or
leaves unread bytes in the buffer. -/
theorem fill_progress (st : Reader) (hr : st.r ≤ st.w) (hw : st.w ≤ st.buf.length)
    (hp : st.panicked = false) (hnf : st.w - st.r < st.buf.length) :
    (st.fill).err ≠ none ∨ (st.fill).r < (st.fill).w := by
  rw [Reader.fill, if_neg (by simp [hp])]
  by_cases hr0 : st.r > 0
  · rw [if_pos hr0]
    have hlen0 : (listCopy st.buf 0 ((st.buf.drop st.r).take (st.w - st.r))).length
        = st.buf.length := listCopy_length _ _ _ (Nat.zero_le _)
    rw [if_neg (by simp [listCopy_length]; omega)]
    set st0 : Reader :=
      { st with buf := listCopy st.buf 0 ((st.buf.drop st.r).take (st.w - st.r)),
                w := st.w - st.r, r := 0 } with hst0
    have hwf := fillLoop_wf maxConsecutiveEmptyReads st0
      (by show st.w - st.r ≤ (listCopy st.buf 0 ((st.buf.drop st.r).take (st.w - st.r))).length
          rw [hlen0]; omega)
    rcases fillLoop_progress maxConsecutiveEmptyReads st0 with h | h
    · exact Or.inl h
    · right
      rw [hwf.2.1]
      calc st0.r = 0 := rfl
        _ ≤ st0.w := Nat.zero_le _
        _ < _ := h
  · rw [if_neg hr0]
    rw [if_neg (by omega)]
    have hwf := fillLoop_wf maxConsecutiveEmptyReads st hw
    rcases fillLoop_progress maxConsecutiveEmptyReads st with h | h
    · exact Or.inl h
    · right
      rw [hwf.2.1]
      omega

/-- A 2-byte reader whose stream misbehaves, returning zero bytes with no
error, about to be hit with a large (bypass) read. -/
def crBypass : Reader :=
  { buf := [0, 0], rd := [⟨[], none⟩], r := 0, w := 0,
    err := none, panicked := false }

/-- C3 as stated is false: a large read (destination at least the buffer
capacity) on an empty buffer takes the bypass path, which forwards the
stream's result unchanged — a stream answering zero bytes with no error
makes `Read` return zero bytes with no error for a 2-byte destination. -/
theorem c3_counterexample :
    (crBypass.Read 2).1 = ([], none) ∧ crBypass.buf.length = 2 := by
  decide

/-- C3 (amended): on a wellformed reader, `Read` into a non-empty
destination returns a positive count or a non-nil error, except exactly on
the large-read bypass path — destination at least the buffer capacity with
an empty buffer and no pending sticky error — when the wrapped stream's
single forwarded response is zero bytes with no error; so `Read` returns
`(0, nil)` exactly when the bypass is taken and the stream answers
`(0, nil)`. -/
theorem c3_read_no_silent_zero (st : Reader) (plen : Nat) (hr : st.r ≤ st.w)
    (hw : st.w ≤ st.buf.length) (hp : st.panicked = false) (h0 : 0 < plen)
    (hside : ¬(st.r = st.w ∧ st.err = none ∧ st.buf.length ≤ plen ∧
      (streamRead st.rd plen).1 = [] ∧ (streamRead st.rd plen).2.1 = none)) :
    0 < (st.Read plen).1.1.length ∨ (st.Read plen).1.2 ≠ none := by
  rw [Reader.Read, if_neg (by omega)]
  by_cases hrw : st.r = st.w
  · rw [if_pos hrw]
    by_cases he : st.err ≠ none
    · rw [if_pos he]
      right
      simpa [Reader.readErr] using he
    rw [if_neg he]
    push_neg at he
    by_cases hbig : plen ≥ st.buf.length
    · rw [if_pos hbig]
      have hs : ¬((streamRead st.rd plen).1 = [] ∧ (streamRead st.rd plen).2.1 = none) :=
        fun hcon => hside ⟨hrw, he, hbig, hcon.1, hcon.2⟩
      by_cases hc : (streamRead st.rd plen).1 = []
      · right
        simp only [Reader.readErr]
        intro hcontra
        exact hs ⟨hc, hcontra⟩
      · left
        simpa using List.length_pos.mpr hc
    · rw [if_neg hbig]
      have hprog := fill_progress st hr hw hp (by omega)
      have hwf := fill_wf st hr hw
      by_cases hfe : st.fill.r = st.fill.w
      · rw [if_pos hfe]
        right
        rcases hprog with h | h
        · simpa [Reader.readErr] using h
        · omega
      · rw [if_neg hfe]
        left
        have h1 : st.fill.r < st.fill.w := lt_of_le_of_ne hwf.2.1 hfe
        have h2 : st.fill.w ≤ st.fill.buf.length := hwf.2.2.1
        simp [List.length_take, List.length_drop]
        omega
  · rw [if_neg hrw]
    left
    have h1 : st.r < st.w := lt_of_le_of_ne hr hrw
    simp [List.length_take, List.length_drop]
    omega

/-- A 2-byte reader with one byte still buffered, whose stream's next
response is zero bytes with no error: a capacity-sized read must still
return the buffered byte. -/
def crCorner : Reader :=
  { buf := [7, 0], rd := [⟨[], none⟩], r := 0, w := 1,
    err := none, panicked := false }

/-- Witness for C3 (amended) at concrete readers: a 1-byte read on
`crFresh` (destination smaller than the 4-byte buffer) returns a positive
count, and a capacity-sized read on `crCorner` (bytes still buffered, a
stream whose next response is zero bytes with no error) does too — the
bypass is not taken there. -/
theorem c3_read_no_silent_zero_witness :
    (0 < (crFresh.Read 1).1.1.length ∨ (crFresh.Read 1).1.2 ≠ none) ∧
    (0 < (crCorner.Read 2).1.1.length ∨ (crCorner.Read 2).1.2 ≠ none) :=
  ⟨c3_read_no_silent_zero crFresh 1 (by decide) (by decide) (by decide)
     (by decide) (by decide),
   c3_read_no_silent_zero crCorner 2 (by decide) (by decide) (by decide)
     (by decide) (by decide)⟩

end Bufio
